import Mathlib

/-!
# Verification of the vbspview asset-to-geometry pipeline

Shallow embedding of the asset-to-geometry pipeline of `vbspview`
(`src/bsp.rs`, `src/prop.rs`, `src/material.rs`, `src/loader.rs`,
`src/main.rs`), together with proofs of the specified properties.

Modelling conventions:
* `f32` scalars are embedded as exact rationals (`ℚ`); the spec's
  coordinate-conversion properties are stated in exact arithmetic.
* 4×4 matrices (`cgmath::Mat4`) are `Matrix (Fin 4) (Fin 4) ℚ`.
* External crates (`vbsp`, `vmdl`, `vtf`, `vmt_parser`, `tf_asset_loader`,
  `three_d`) are modelled as capability records: each fallible parser or
  loader call becomes a function field of a "world" structure, so the
  control flow of the repository's own code is embedded exactly while the
  externals stay abstract.
* Rust `HashMap` iteration order is nondeterministic; it is refined here by
  a deterministic association list keyed in first-insertion order, which
  preserves the key set and the per-key contents.
-/

set_option maxRecDepth 10000

namespace Vbspview

/-! ## Scalars and vectors -/

/-- `three_d::Vec3` / `cgmath::Vector3<f32>`, embedded over exact rationals. -/
structure Vec3 where
  x : ℚ
  y : ℚ
  z : ℚ
deriving DecidableEq, Repr

instance : Zero Vec3 := ⟨⟨0, 0, 0⟩⟩

instance : Add Vec3 := ⟨fun a b => ⟨a.x + b.x, a.y + b.y, a.z + b.z⟩⟩

instance : SMul ℚ Vec3 := ⟨fun s v => ⟨s * v.x, s * v.y, s * v.z⟩⟩

instance : Neg Vec3 := ⟨fun v => ⟨-v.x, -v.y, -v.z⟩⟩

theorem Vec3.zero_def : (0 : Vec3) = ⟨0, 0, 0⟩ := rfl

theorem Vec3.add_def (a b : Vec3) : a + b = ⟨a.x + b.x, a.y + b.y, a.z + b.z⟩ := rfl

theorem Vec3.smul_def (s : ℚ) (v : Vec3) : s • v = ⟨s * v.x, s * v.y, s * v.z⟩ := rfl

/-- `src/bsp.rs` line 35 (and `src/main.rs` line 288):
`pub const UNIT_SCALE: f32 = 1.0 / (1.905 * 100.0);` -/
def UNIT_SCALE : ℚ := 1 / (1.905 * 100.0)

/-- `src/bsp.rs` lines 25–32 (the `src/main.rs` lines 278–285 copy is the
same formula on `[f32; 3]`): axis permutation and engine-unit scaling. -/
def map_coords (vec : Vec3) : Vec3 :=
  { x := vec.y * UNIT_SCALE
    y := vec.z * UNIT_SCALE
    z := vec.x * UNIT_SCALE }

attribute [local semireducible] Rat.mul Rat.inv Rat.ofScientific Rat.add Rat.sub

/-- C2: for every input vector `v`, `map_coords` returns exactly
`(v.y * SCALE, v.z * SCALE, v.x * SCALE)` with `SCALE = 1 / (1.905 * 100)`;
it is total (a plain Lean function), and the zero vector maps to the zero
vector. -/
theorem map_coords_exact (v : Vec3) :
    map_coords v =
      { x := v.y * (1 / (1.905 * 100))
        y := v.z * (1 / (1.905 * 100))
        z := v.x * (1 / (1.905 * 100)) } ∧
    map_coords 0 = 0 := by
  refine ⟨rfl, ?_⟩
  simp only [map_coords, Vec3.zero_def, zero_mul]

/-- C8: `map_coords` is additive and homogeneous, and sends one native
X-axis unit `(1.905, 0, 0)` to `0.01` on the converted Z axis. -/
theorem map_coords_linear (a b : Vec3) (s : ℚ) :
    map_coords (a + b) = map_coords a + map_coords b ∧
    map_coords (s • a) = s • map_coords a ∧
    map_coords ⟨1.905, 0, 0⟩ = ⟨0, 0, 1 / 100⟩ := by
  refine ⟨?_, ?_, ?_⟩
  · simp only [map_coords, Vec3.add_def, Vec3.mk.injEq]
    exact ⟨add_mul _ _ _, add_mul _ _ _, add_mul _ _ _⟩
  · simp only [map_coords, Vec3.smul_def, Vec3.mk.injEq]
    exact ⟨mul_assoc _ _ _, mul_assoc _ _ _, mul_assoc _ _ _⟩
  · simp only [map_coords, UNIT_SCALE, Vec3.mk.injEq]
    norm_num

/-! ## String helpers

Embeddings of the Rust `str` operations used by the pipeline, implemented
over `String.data` so that they reduce in the kernel. -/

/-- Rust `char::to_ascii_lowercase`: ASCII-only lowercasing. -/
def charAsciiLower (c : Char) : Char :=
  if 'A' ≤ c ∧ c ≤ 'Z' then Char.ofNat (c.toNat + 32) else c

/-- Rust `str::to_ascii_lowercase`. -/
def to_ascii_lowercase (s : String) : String :=
  ⟨s.data.map charAsciiLower⟩

/-- Rust `str::starts_with`. -/
def rustStartsWith (s pre : String) : Bool :=
  pre.data.isPrefixOf s.data

/-- Fuel-bounded worker for `trim_end_matches`; each step strips one
trailing copy of the pattern. The fuel (the string length) always exceeds
the number of possible strips since each strip removes at least one
character. -/
def trimEndMatchesAux (pat : List Char) : Nat → List Char → List Char
  | 0, s => s
  | fuel + 1, s =>
    if pat ≠ [] ∧ pat.isSuffixOf s then
      trimEndMatchesAux pat fuel (s.take (s.length - pat.length))
    else s

/-- Rust `str::trim_end_matches` (repeatedly removes the trailing pattern). -/
def trim_end_matches (s pat : String) : String :=
  ⟨trimEndMatchesAux pat.data s.data.length s.data⟩

/-- Rust `str::trim_start_matches('/')` (repeatedly removes a leading `/`). -/
def trim_start_slashes (s : String) : String :=
  ⟨s.data.dropWhile (· = '/')⟩

/-- Fuel-bounded worker for non-overlapping left-to-right `str::replace`. -/
def replaceAux (pat rep : List Char) : Nat → List Char → List Char
  | 0, s => s
  | fuel + 1, s =>
    match s with
    | [] => []
    | c :: rest =>
      if pat.isPrefixOf s then rep ++ replaceAux pat rep fuel (s.drop pat.length)
      else c :: replaceAux pat rep fuel rest

/-- Rust `str::replace` (all non-overlapping occurrences, left to right).
The empty-pattern case never arises in this code base. -/
def rustReplace (s pat rep : String) : String :=
  if pat.data = [] then s else ⟨replaceAux pat.data rep.data s.data.length s.data⟩

/-! ## Material resolver (`src/material.rs`)

External crates are abstracted: raw bytes, parsed VTF containers, decoded
images, unresolved VMT parse trees and texture transforms are opaque
tokens, and each external call is a capability field of `VmtWorld`. -/

/-- Raw bytes (`Vec<u8>`), abstract. -/
abbrev ByteStr := List Nat

/-- `vtf::vtf::VTF`, abstract parse-result token. -/
abbrev VTFFile := Nat

/-- `image::DynamicImage`, abstract decoded-image token. -/
abbrev DynImage := Nat

/-- `vmt_parser::TextureTransform`, abstract; `0` stands for
`TextureTransform::default()`. -/
abbrev TexTransform := Nat

/-- An unresolved `vmt_parser` parse tree, abstract. -/
abbrev RawVmt := Nat

/-- The crate's `Error` enum (`src/main.rs` lines 19–33, plus the
`ResourceNotFound` variant used by `src/material.rs` and `src/loader.rs`). -/
inductive Err where
  | resourceNotFound (path : String)
  | utf8
  | other (msg : String)
  | external (msg : String)
deriving DecidableEq, Repr

/-- The root shader class of a parsed material description. `water`
corresponds to the `Material::Water` variant of `vmt_parser`. -/
inductive ShaderClass where
  | water
  | other (name : String)
deriving DecidableEq, Repr

/-- A resolved `vmt_parser::material::Material`, abstracted to the
accessors `src/material.rs` uses. `shaderClass = .water` together with
`base_texture = none` corresponds to matching
`Material::Water(WaterMaterial { base_texture: None, .. })`. -/
structure Material where
  shaderClass : ShaderClass
  base_texture : Option String
  translucent : Bool
  surface_prop : Option String
  alpha_test : Option ℚ
  bump_map : Option String
  base_texture_transform : Option TexTransform
deriving DecidableEq, Repr

/-- A `[u8; 4]` color. -/
structure RGBA where
  r : Nat
  g : Nat
  b : Nat
  a : Nat
deriving DecidableEq, Repr

/-- `src/material.rs` lines 39–43. -/
structure TextureData where
  name : String
  image : DynImage
deriving DecidableEq, Repr

/-- `src/material.rs` lines 27–37. -/
structure MaterialData where
  path : String
  color : RGBA
  texture : Option TextureData
  alpha_test : Option ℚ
  bump_map : Option TextureData
  translucent : Bool
  transform : Option TexTransform
deriving DecidableEq, Repr

/-- `MaterialData::default()` as derived in Rust: empty path, zero color,
`None` options, `false` flag. -/
def MaterialData.default : MaterialData :=
  { path := "", color := ⟨0, 0, 0, 0⟩, texture := none, alpha_test := none,
    bump_map := none, translucent := false, transform := none }

/-- Capabilities of the external crates used by `src/material.rs`. -/
structure VmtWorld where
  /-- `tf_asset_loader::Loader::load`; `Ok(None)` means not found. -/
  load : String → Except Err (Option ByteStr)
  /-- `String::from_utf8`. -/
  utf8 : ByteStr → Except Err String
  /-- `vmt_parser::from_str`; the error payload is discarded by the caller. -/
  parseVmt : String → Except Unit RawVmt
  /-- `Material::resolve`, taking the include-loading closure. -/
  resolveVmt : RawVmt → (String → Except Err String) → Except Err Material
  /-- `vtf::vtf::VTF::read`. -/
  vtfRead : ByteStr → Except Err VTFFile
  /-- `VTF::highres_image.decode(0)` followed by conversion. -/
  vtfDecode : VTFFile → Except Err DynImage

/-- `src/material.rs` lines 120–129 (`load_texture`). -/
def load_texture (W : VmtWorld) (name : String) : Except Err DynImage := do
  let path := "materials/" ++ trim_start_slashes (trim_end_matches name ".vtf") ++ ".vtf"
  let raw ← match ← W.load path with
    | some r => pure r
    | none => throw (.resourceNotFound path)
  let vtf ← W.vtfRead raw
  W.vtfDecode vtf

/-- The path normalization at `src/material.rs` lines 47–54. -/
def vmt_path (path : String) : String :=
  if rustStartsWith path "materials/" then path
  else "materials/" ++ trim_end_matches (to_ascii_lowercase path) ".vmt" ++ ".vmt"

/-- The include-loading closure passed to `material.resolve` at
`src/material.rs` lines 65–71. -/
def resolve_loader (W : VmtWorld) (path : String) : Except Err String := do
  let data ← match ← W.load path with
    | some d => pure d
    | none => throw (.resourceNotFound path)
  W.utf8 data

/-- `src/material.rs` lines 46–118 (`load_material`). -/
def load_material (W : VmtWorld) (path0 : String) : Except Err MaterialData := do
  let path := vmt_path path0
  let raw ← match ← W.load path with
    | some r => pure r
    | none => throw (.resourceNotFound path)
  let vdf ← W.utf8 raw
  let material ← match W.parseVmt vdf with
    | .ok m => pure m
    | .error _ => throw (.other ("Failed to load material " ++ path))
  let material ← W.resolveVmt material (resolve_loader W)
  if material.shaderClass = .water ∧ material.base_texture = none then
    return { MaterialData.default with
              color := ⟨82, 180, 217, 128⟩, path := path, translucent := true }
  let base ← match material.base_texture with
    | some b => pure b
    | none => throw (.other (path ++ " has no base texture"))
  let translucent := material.translucent
  let glass := material.surface_prop = some "glass"
  let alpha_test := material.alpha_test
  let texture ← load_texture W base
  let bump_map := material.bump_map.bind fun p =>
    (load_texture W p).toOption.map fun img => TextureData.mk p img
  let transform := material.base_texture_transform.filter (fun t => t ≠ 0)
  return { path := path, color := ⟨255, 255, 255, 255⟩,
           texture := some ⟨base, texture⟩,
           bump_map := bump_map, alpha_test := alpha_test,
           translucent := translucent || glass, transform := transform }

/-- `src/material.rs` lines 13–25 (`load_material_fallback`). -/
def load_material_fallback (W : VmtWorld) (name : String) : MaterialData :=
  match load_material W name with
  | .ok mat => mat
  | .error _ =>
    { MaterialData.default with path := name, color := ⟨255, 0, 255, 255⟩ }

theorem except_bind_ok {α β : Type} (a : α) (f : α → Except Err β) :
    (Except.ok a : Except Err α) >>= f = f a := rfl

theorem except_bind_err {α β : Type} (e : Err) (f : α → Except Err β) :
    (Except.error e : Except Err α) >>= f = .error e := rfl

/-- C1: whenever `load_material` fails (with any error, on any loader
state), `load_material_fallback` returns normally with the conspicuous
fallback descriptor: magenta opaque color `(255, 0, 255, 255)`, no base
texture, no bump map, no alpha-test cutoff. -/
theorem load_material_fallback_never_throws (W : VmtWorld) (name : String) (e : Err)
    (h : load_material W name = .error e) :
    load_material_fallback W name =
      { path := name, color := ⟨255, 0, 255, 255⟩, texture := none,
        alpha_test := none, bump_map := none, translucent := false,
        transform := none } := by
  unfold load_material_fallback
  rw [h]
  rfl

/-- A loader state in which every asset is missing. -/
def emptyWorld : VmtWorld :=
  { load := fun _ => .ok none
    utf8 := fun _ => .ok ""
    parseVmt := fun _ => .ok 0
    resolveVmt := fun _ _ => .ok ⟨.other "", none, false, none, none, none, none⟩
    vtfRead := fun _ => .ok 0
    vtfDecode := fun _ => .ok 0 }

theorem load_material_fallback_never_throws_witness :
    load_material emptyWorld "missing" =
      .error (.resourceNotFound "materials/missing.vmt") ∧
    load_material_fallback emptyWorld "missing" =
      { path := "missing", color := ⟨255, 0, 255, 255⟩, texture := none,
        alpha_test := none, bump_map := none, translucent := false,
        transform := none } :=
  ⟨rfl, load_material_fallback_never_throws emptyWorld "missing" _ rfl⟩

theorem except_pure {α : Type} (a : α) : (pure a : Except Err α) = .ok a := rfl

theorem except_throw {α : Type} (e : Err) : (throw e : Except Err α) = .error e := rfl

/-- The fixed translucent blue water fallback descriptor
(`src/material.rs` lines 77–82). -/
def waterDescriptor (path : String) : MaterialData :=
  { MaterialData.default with
      color := ⟨82, 180, 217, 128⟩, path := path, translucent := true }

/-- C7: if the located material parses and patch-resolves to a description
with no base texture, then (a) when its shader class is water,
`load_material` succeeds with the fixed translucent blue descriptor, and
does so for any texture-decoding capabilities (no decode is attempted);
(b) otherwise `load_material` fails with a "has no base texture" error. -/
theorem load_material_water_classification
    (W : VmtWorld) (path0 : String) (raw : ByteStr) (vdf : String)
    (r : RawVmt) (m : Material)
    (h1 : W.load (vmt_path path0) = .ok (some raw))
    (h2 : W.utf8 raw = .ok vdf)
    (h3 : W.parseVmt vdf = .ok r)
    (h4 : W.resolveVmt r (resolve_loader W) = .ok m)
    (hbase : m.base_texture = none) :
    (m.shaderClass = .water →
      ∀ W' : VmtWorld, W'.load = W.load → W'.utf8 = W.utf8 →
        W'.parseVmt = W.parseVmt → W'.resolveVmt = W.resolveVmt →
        load_material W' path0 = .ok (waterDescriptor (vmt_path path0))) ∧
    (m.shaderClass ≠ .water →
      load_material W path0 =
        .error (.other (vmt_path path0 ++ " has no base texture"))) := by
  have main : ∀ W' : VmtWorld, W'.load = W.load → W'.utf8 = W.utf8 →
      W'.parseVmt = W.parseVmt → W'.resolveVmt = W.resolveVmt →
      load_material W' path0 =
        if m.shaderClass = .water then .ok (waterDescriptor (vmt_path path0))
        else .error (.other (vmt_path path0 ++ " has no base texture")) := by
    intro W' hl hu hp hr
    have hres : resolve_loader W' = resolve_loader W := by
      unfold resolve_loader
      rw [hl, hu]
    simp only [load_material]
    rw [hl, hu, hp, hres, hr]
    simp only [h1, except_pure, except_bind_ok, h2, h3, h4, hbase, and_true,
               except_throw, except_bind_err]
    by_cases hw : m.shaderClass = .water
    · simp only [hw, if_pos rfl, waterDescriptor, MaterialData.default]
    · simp only [hw, if_false, ite_false]
  refine ⟨fun hw W' hl hu hp hr => ?_, fun hw => ?_⟩
  · rw [main W' hl hu hp hr, if_pos hw]
  · rw [main W rfl rfl rfl rfl, if_neg hw]

/-- A loader state carrying one parseable material that resolves to a
water-class description with no base texture. -/
def waterWorld : VmtWorld :=
  { load := fun _ => .ok (some [1])
    utf8 := fun _ => .ok "vmt"
    parseVmt := fun _ => .ok 0
    resolveVmt := fun _ _ => .ok ⟨.water, none, false, none, none, none, none⟩
    vtfRead := fun _ => .error .utf8
    vtfDecode := fun _ => .error .utf8 }

theorem load_material_water_classification_witness :
    waterWorld.load (vmt_path "water") = .ok (some [1]) ∧
    waterWorld.utf8 [1] = .ok "vmt" ∧
    waterWorld.parseVmt "vmt" = .ok 0 ∧
    waterWorld.resolveVmt 0 (resolve_loader waterWorld) =
      .ok ⟨.water, none, false, none, none, none, none⟩ ∧
    (Material.mk .water none false none none none none).base_texture = none ∧
    load_material waterWorld "water" = .ok (waterDescriptor (vmt_path "water")) :=
  ⟨rfl, rfl, rfl, rfl, rfl,
    (load_material_water_classification waterWorld "water" [1] "vmt" 0
      ⟨.water, none, false, none, none, none, none⟩ rfl rfl rfl rfl rfl).1
      rfl waterWorld rfl rfl rfl rfl⟩

/-! ## Material table (`src/material.rs` `MaterialSet`, `src/loader.rs`) -/

/-- `vmdl::mdl::TextureInfo`: a material name plus its search-path list.
This pair is the Material Key of the spec. -/
structure TextureInfo where
  name : String
  search_paths : List String
deriving DecidableEq, Repr

/-- `src/loader.rs` lines 113–121 (`Loader::find_in_paths`), over the
abstract asset-existence capability `ex` standing for `Loader::exists`
(filesystem, VPK archives and the map's pack file). -/
def find_in_paths (ex : String → Bool) (name : String) (paths : List String) :
    Option String :=
  paths.findSome? fun path =>
    let full_path := path ++ name
    if ex full_path then some full_path else none

/-- The search-path normalization at `src/material.rs` lines 183–192. -/
def material_search_paths (material : TextureInfo) : List String :=
  material.search_paths.map fun dir =>
    "materials/" ++ trim_start_slashes (to_ascii_lowercase dir)

/-- The name normalization and search-path resolution at `src/material.rs`
lines 194–205: the string actually stored and deduplicated on. -/
def resolved_material (ex : String → Bool) (material : TextureInfo) : String :=
  let search_path := material_search_paths material
  let name := trim_end_matches (to_ascii_lowercase material.name) ".vmt" ++ ".vmt"
  if search_path.isEmpty then name
  else (find_in_paths ex name search_path).getD name

/-- `src/material.rs` lines 182–221 (`MaterialSet::get_index`), with the
`RefCell<Vec<String>>` state passed explicitly: returns the index and the
updated material list. -/
def get_index (ex : String → Bool) (material : TextureInfo)
    (materials : List String) : Nat × List String :=
  match materials.findIdx? (· = resolved_material ex material) with
  | some i => (i, materials)
  | none => (materials.length, materials ++ [resolved_material ex material])

/-- `src/material.rs` lines 223–225 (`MaterialSet::into_materials`):
drains the `RefCell` into the final ordered material list. -/
def into_materials (materials : List String) : List String := materials

/-- Folding a sequence of `get_index` calls over the table state. -/
def run_get_index (ex : String → Bool) (ks : List TextureInfo)
    (s : List String) : List String :=
  ks.foldl (fun s k => (get_index ex k s).2) s

theorem findIdx?_mono {α : Type} {p : α → Bool} {l₁ l₂ : List α} (h : l₁ <+: l₂)
    {i : Nat} (hf : l₁.findIdx? p = some i) : l₂.findIdx? p = some i := by
  obtain ⟨t, rfl⟩ := h
  rw [List.findIdx?_append, hf]
  rfl

theorem prefix_getElem? {α : Type} {l₁ l₂ : List α} (h : l₁ <+: l₂) {i : Nat}
    {a : α} (hg : l₁[i]? = some a) : l₂[i]? = some a := by
  obtain ⟨t, rfl⟩ := h
  have hi : i < l₁.length := by
    by_contra h'
    rw [List.getElem?_eq_none (Nat.le_of_not_lt h')] at hg
    exact Option.noConfusion hg
  rw [List.getElem?_append_left hi]
  exact hg

theorem get_index_spec (ex : String → Bool) (k : TextureInfo) (s : List String) :
    (get_index ex k s).1 < (get_index ex k s).2.length ∧
    ((get_index ex k s).2)[(get_index ex k s).1]? = some (resolved_material ex k) ∧
    s <+: (get_index ex k s).2 := by
  unfold get_index
  cases h : s.findIdx? (· = resolved_material ex k) with
  | some i =>
    obtain ⟨hlt, hp, -⟩ := List.findIdx?_eq_some_iff_getElem.mp h
    refine ⟨hlt, ?_, List.prefix_refl s⟩
    rw [List.getElem?_eq_getElem hlt]
    simpa using hp
  | none =>
    refine ⟨by simp, ?_, List.prefix_append s _⟩
    simp

theorem get_index_findIdx (ex : String → Bool) (k : TextureInfo) (s : List String) :
    ((get_index ex k s).2).findIdx? (· = resolved_material ex k) =
      some (get_index ex k s).1 := by
  unfold get_index
  cases h : s.findIdx? (· = resolved_material ex k) with
  | some i => exact h
  | none =>
    rw [List.findIdx?_append, h]
    simp

theorem run_get_index_extends (ex : String → Bool) (ks : List TextureInfo)
    (s : List String) : s <+: run_get_index ex ks s := by
  induction ks generalizing s with
  | nil => exact List.prefix_refl s
  | cons k ks ih =>
    exact ((get_index_spec ex k s).2.2).trans (ih ((get_index ex k s).2))

/-- C10 (invariant): every `get_index` call returns an index below the
length of the table state it returns; the state only ever grows (any
sequence of further calls extends it, never edits or reorders it), so the
returned index keeps denoting the same resolved material path in the list
`into_materials` finally produces. -/
theorem get_index_index_stability (ex : String → Bool) (k : TextureInfo)
    (s : List String) (ks : List TextureInfo) :
    (get_index ex k s).1 < (get_index ex k s).2.length ∧
    ((get_index ex k s).2)[(get_index ex k s).1]? = some (resolved_material ex k) ∧
    s <+: (get_index ex k s).2 ∧
    (get_index ex k s).2 <+: run_get_index ex ks (get_index ex k s).2 ∧
    (into_materials (run_get_index ex ks (get_index ex k s).2))[(get_index ex k s).1]? =
      some (resolved_material ex k) := by
  obtain ⟨h1, h2, h3⟩ := get_index_spec ex k s
  have h4 := run_get_index_extends ex ks (get_index ex k s).2
  exact ⟨h1, h2, h3, h4, prefix_getElem? h4 h2⟩

/-- C3 counterexample: the keys `("Foo", [])` and `("foo", [])` differ as
(name, search-path) pairs, yet the table assigns both the index `0` (the
second call also appends nothing). -/
theorem get_index_distinct_keys_same_index :
    (TextureInfo.mk "Foo" [] ≠ TextureInfo.mk "foo" []) ∧
    get_index (fun _ => false) ⟨"Foo", []⟩ [] = (0, ["foo.vmt"]) ∧
    get_index (fun _ => false) ⟨"foo", []⟩
        ((get_index (fun _ => false) ⟨"Foo", []⟩ []).2) = (0, ["foo.vmt"]) :=
  ⟨by decide, rfl, rfl⟩

/-- C3 (amended): the table deduplicates on the *resolved material path*
(lowercased name with `.vmt` extension, resolved through the normalized
search paths). A repeat call whose key resolves to the same path — in
particular an equal key — returns the same index, even after arbitrary
interleaved calls; a key whose resolved path is not yet stored appends it
and returns the previous length; two keys with distinct resolved paths
receive distinct indices. -/
theorem get_index_dedup (ex : String → Bool) (k1 k2 : TextureInfo)
    (s : List String) (ks : List TextureInfo) :
    ((get_index ex k1
        (run_get_index ex ks ((get_index ex k1 s).2))).1 = (get_index ex k1 s).1) ∧
    (resolved_material ex k1 ∉ s →
      get_index ex k1 s = (s.length, s ++ [resolved_material ex k1])) ∧
    (resolved_material ex k1 ≠ resolved_material ex k2 →
      (get_index ex k2 ((get_index ex k1 s).2)).1 ≠ (get_index ex k1 s).1) := by
  have get_index_of_found : ∀ (k : TextureInfo) (l : List String) (i : Nat),
      l.findIdx? (· = resolved_material ex k) = some i → get_index ex k l = (i, l) := by
    intro k l i h
    unfold get_index
    rw [h]
  refine ⟨?_, ?_, ?_⟩
  · have hf := get_index_findIdx ex k1 s
    have hmono := findIdx?_mono
      (run_get_index_extends ex ks ((get_index ex k1 s).2)) hf
    rw [get_index_of_found k1 _ _ hmono]
  · intro hnot
    have hnone : s.findIdx? (· = resolved_material ex k1) = none := by
      rw [List.findIdx?_eq_none_iff]
      intro x hx
      simp only [decide_eq_false_iff_not]
      exact fun hx' => hnot (hx' ▸ hx)
    unfold get_index
    rw [hnone]
  · intro hne heq
    obtain ⟨-, h2, -⟩ := get_index_spec ex k1 s
    obtain ⟨-, h2', -⟩ := get_index_spec ex k2 ((get_index ex k1 s).2)
    obtain ⟨-, -, hpre⟩ := get_index_spec ex k2 ((get_index ex k1 s).2)
    have := prefix_getElem? hpre h2
    rw [heq] at h2'
    rw [this] at h2'
    exact hne (Option.some.inj h2')

theorem get_index_dedup_witness :
    get_index (fun _ => false) ⟨"a", []⟩ [] = (0, ["a.vmt"]) ∧
    (get_index (fun _ => false) ⟨"b", []⟩
        ((get_index (fun _ => false) ⟨"a", []⟩ []).2)).1 ≠
      (get_index (fun _ => false) ⟨"a", []⟩ []).1 :=
  ⟨(get_index_dedup (fun _ => false) ⟨"a", []⟩ ⟨"b", []⟩ [] []).2.1 (by decide),
   (get_index_dedup (fun _ => false) ⟨"a", []⟩ ⟨"b", []⟩ [] []).2.2 (by decide)⟩

/-! ## Matrices and vectors (`cgmath` over exact rationals) -/

/-- `cgmath::Mat4` / `three_d::Mat4`. -/
abbrev Mat4 := Matrix (Fin 4) (Fin 4) ℚ

/-- `cgmath::Vector4<f32>`. -/
abbrev Vec4 := Fin 4 → ℚ

/-- `three_d::Vec2` (used for UV coordinates). -/
abbrev Vec2 := ℚ × ℚ

/-- `cgmath::vec4`. -/
def vec4 (x y z w : ℚ) : Vec4 := ![x, y, z, w]

/-- `Vector4::truncate`. -/
def truncate (v : Vec4) : Vec3 := ⟨v 0, v 1, v 2⟩

/-- `Mat4::from_translation`: identity with `t` in the last column. -/
def from_translation (t : Vec3) : Mat4 :=
  Matrix.of fun i j =>
    if i = j then 1
    else if j = 3 then ![t.x, t.y, t.z, 0] i
    else 0

/-- `cgmath::SquareMatrix::invert`: `None` on a singular matrix, otherwise
the inverse (computed here as `det⁻¹ • adjugate`). -/
def mat4_invert (A : Mat4) : Option Mat4 :=
  if A.det = 0 then none else some (A.det⁻¹ • A.adjugate)

/-- `src/bsp.rs` lines 20–23 (`apply_transform`). -/
def apply_transform (coord : Vec3) (transform : Mat4) : Vec3 :=
  truncate (transform.mulVec (vec4 coord.x coord.y coord.z 1))

/-! ## Prop models (`vmdl` crate data, abstracted to the accessors used) -/

/-- A `vmdl` model vertex: position, normal, UV. -/
structure Vertex where
  position : Vec3
  normal : Vec3
  texture_coordinates : Vec2
deriving DecidableEq

/-- One `vmdl` mesh: its material slot, vertices and tangent basis. -/
structure VMesh where
  material_index : Nat
  vertices : List Vertex
  tangents : List Vec4

/-- A `vmdl` skin table: material slot → texture name.
`SkinTable::texture` returns `None` when the slot is out of range. -/
structure SkinTable where
  textures : List String
deriving DecidableEq

def SkinTable.texture (t : SkinTable) (i : Nat) : Option String :=
  t.textures[i]?

/-- `vmdl::Model`: skin tables, meshes, and the texture table
(each entry a name plus search paths). -/
structure VModel where
  skin_tables : List SkinTable
  meshes : List VMesh
  textures : List TextureInfo

/-- `vbsp::StaticPropLump`, abstracted to the accessors used. The
`rotation` field stands for the already-converted
`Mat4::from(prop.rotation())`. -/
structure StaticPropLump where
  model : String
  origin : Vec3
  rotation : Mat4
  skin : Int

/-- Rust `i32 as usize` on a 64-bit target: sign extension then
reinterpretation, i.e. the value modulo `2^64`. -/
def as_usize (i : Int) : Nat := (i % (2 ^ 64 : Int)).toNat

/-- The skin-table selection with fallback shared by both `prop_to_meshes`
revisions (`src/bsp.rs` lines 180–186, `src/prop.rs` lines 83–89): an
out-of-range skin index falls back to skin table 0. The
`.next().unwrap()` panic on a model with zero skin tables is not modelled
(the spec guarantees every model has at least one). -/
def select_skin (model : VModel) (skin : Int) : SkinTable :=
  match model.skin_tables[as_usize skin]? with
  | some s => s
  | none => model.skin_tables.headD ⟨[]⟩

/-- The abstract result of the three-argument `load_material_fallback`
referenced by `src/prop.rs` (a `three_d::CpuMaterial`). -/
abbrev CpuMaterialP := Nat

/-- A `vbsp` texture handle, abstracted to the accessors used by
`src/bsp.rs`: the texture name, the UV functionals `u`/`v`, and the
`texture_data()` dimensions. -/
structure BTexture where
  name : String
  u : Vec3 → ℚ
  v : Vec3 → ℚ
  width : Nat
  height : Nat

/-- A `vbsp` face handle: its texture, visibility flag, and
`vertex_positions()` sequence. -/
structure Face where
  texture : BTexture
  visible : Bool
  positions : List Vec3

/-- A `vbsp::data::Model` handle: its faces. -/
structure BspModel where
  faces : List Face

/-- A parsed `vbsp::Bsp`, abstracted to the accessors used:
`models()`, `static_props()` (the embedded pack file is considered part
of the loader capabilities). -/
structure Bsp where
  models : List BspModel
  static_props : List StaticPropLump

/-- A parsed VTF container: an opaque id plus the header dimensions used
by `src/bsp.rs` `load_texture`. -/
structure VTFMeta where
  id : Nat
  width : Nat
  height : Nat

/-- Capabilities of the external crates used by the geometry pipeline
(`src/bsp.rs`, `src/prop.rs`, `src/loader.rs`). `load` is
`Loader::load` of `src/loader.rs` (this revision errors on a missing
asset instead of returning `None`); `fileExists` is `Loader::exists`;
the effect of `Loader::set_pack` is considered part of these fixed
capabilities. `loadMaterialFallback` — Modelled from the spec: the
three-argument `load_material_fallback` called at `src/prop.rs` line 137
is not under `src/`; per the spec (§4.2 failure policy, §7) it is total
and never propagates an error, which is the only property the pipeline
relies on, so it is modelled as a total capability. -/
structure World where
  load : String → Except Err ByteStr
  fileExists : String → Bool
  readBsp : ByteStr → Except Err Bsp
  readMdl : ByteStr → Except Err Nat
  readVtx : ByteStr → Except Err Nat
  readVvd : ByteStr → Except Err Nat
  from_parts : Nat → Nat → Nat → VModel
  vtfFromBytes : ByteStr → Except Err VTFMeta
  vtfRead : ByteStr → Except Err VTFMeta
  vtfDecode : VTFMeta → Except Err DynImage
  compute_normals : List Vec3 → List Vec3
  loadMaterialFallback : String → List String → CpuMaterialP

/-- `src/prop.rs` lines 13–20 (and the identical `src/bsp.rs` lines
160–167): load the three co-named binary sections and assemble the model. -/
def load_prop (W : World) (name : String) : Except Err VModel := do
  let mdl ← W.readMdl (← W.load name)
  let vtx ← W.readVtx (← W.load (rustReplace name ".mdl" ".dx90.vtx"))
  let vvd ← W.readVvd (← W.load (rustReplace name ".mdl" ".vvd"))
  pure (W.from_parts mdl vtx vvd)

/-! ## Prop mesh emission, baked-transform revision (`src/bsp.rs`) -/

/-- `src/bsp.rs` lines 169–173 (`ModelData`). -/
structure ModelData where
  model : VModel
  transform : Mat4
  skin : Int

/-- The older `three_d::CpuMesh` (as used by `src/bsp.rs`). -/
structure CpuMesh where
  positions : List Vec3
  normals : Option (List Vec3)
  uvs : Option (List Vec2)
  material_name : Option String

/-- `src/bsp.rs` lines 175–216 (`prop_to_meshes`): bakes the placement
transform into positions and applies
`transform.invert().unwrap().transpose() * -1.0` to normals. The
`unwrap` panic on a singular transform is modelled as the identity
default; theorems assume invertibility. The `.expect` panic on a
texture-slot miss is modelled as the empty name. -/
def prop_to_meshes_bsp (prop : ModelData) : List CpuMesh :=
  let transform := prop.transform
  let normal_transform := (-1 : ℚ) • Matrix.transpose ((mat4_invert transform).getD 1)
  let skin := select_skin prop.model prop.skin
  prop.model.meshes.map fun mesh =>
    let texture := (skin.texture mesh.material_index).getD ""
    { positions := mesh.vertices.map fun v =>
        apply_transform (map_coords v.position) transform
      normals := some (mesh.vertices.map fun v =>
        apply_transform (map_coords v.normal) normal_transform)
      uvs := some (mesh.vertices.map fun v => v.texture_coordinates)
      material_name := some texture }

/-! ## Prop mesh emission, primitive-transform revision (`src/prop.rs`) -/

/-- `src/prop.rs` lines 69–74 (`PropData`). -/
structure PropData where
  name : String
  model : VModel
  transform : Mat4
  skin : Int

/-- `three_d_asset::TriMesh` (the fields used). -/
structure TriMesh where
  positions : List Vec3
  indices : List Nat
  normals : Option (List Vec3)
  uvs : Option (List Vec2)
  tangents : Option (List Vec4)

/-- `three_d_asset::Primitive` (the fields used; animations omitted). -/
structure Primitive where
  name : String
  transformation : Mat4
  geometry : TriMesh
  material_index : Option Nat

/-- `src/prop.rs` lines 76–134 (`prop_to_meshes`): keeps the placement
transform at the primitive level (the per-vertex transform lines are
commented out in the source); positions and normals receive only
`map_coords`. -/
def prop_to_meshes_prop (prop : PropData) (textures : List TextureInfo) :
    List Primitive :=
  let transform := prop.transform
  let skin := select_skin prop.model prop.skin
  prop.model.meshes.map fun mesh =>
    let texture := (skin.texture mesh.material_index).getD ""
    let material_index := textures.findIdx? (·.name = texture)
    { name := ""
      transformation := transform
      geometry :=
        { positions := mesh.vertices.map fun v => map_coords v.position
          indices := []
          normals := some (mesh.vertices.map fun v => map_coords v.normal)
          uvs := some (mesh.vertices.map fun v => v.texture_coordinates)
          tangents := some mesh.tangents }
      material_index := material_index }

/-! ## Prop loaders -/

/-- One step of collecting `(tex.name, tex)` pairs into a `HashMap`: a
later entry with an equal key overwrites the earlier value. -/
def insert_texture (acc : List TextureInfo) (t : TextureInfo) : List TextureInfo :=
  if acc.any (·.name = t.name) then
    acc.map fun u => if u.name = t.name then t else u
  else acc ++ [t]

/-- `HashMap::from_iter` keyed by texture name followed by
`into_values()`, as done in both `load_props` revisions. `HashMap`
iteration order is nondeterministic; this is its deterministic refinement
keeping first-insertion key order (the key set and each key's surviving
value are exactly the `HashMap`'s). -/
def collect_by_name (ts : List TextureInfo) : List TextureInfo :=
  ts.foldl insert_texture []

/-- `src/prop.rs` lines 136–138 (`prop_texture_to_material`), which calls
the spec-modelled three-argument `load_material_fallback`. -/
def prop_texture_to_material (W : World) (tex : TextureInfo) : CpuMaterialP :=
  W.loadMaterialFallback tex.name tex.search_paths

/-- The newer `three_d::CpuModel` (as used by `src/prop.rs`). -/
structure CpuModelP where
  name : String
  geometries : List Primitive
  materials : List CpuMaterialP

/-- `src/prop.rs` lines 25–43: the `let props: Vec<PropData>` binding —
placements whose model fails to load are logged and dropped by the
`filter_map`, the rest become `PropData` records. -/
def successful_props (W : World) (props : List StaticPropLump) : List PropData :=
  (props.filterMap fun prop =>
      match load_prop W prop.model with
      | .ok model => some (prop, model)
      | .error _ => none).map fun pm =>
        PropData.mk pm.1.model pm.2
          (from_translation (map_coords pm.1.origin) * pm.1.rotation) pm.1.skin

/-- `src/prop.rs` lines 21–67 (`load_props`): the surviving placements are
turned into mesh primitives; the material list is the name-deduplicated
texture table of the loaded models. -/
def load_props_prop (W : World) (props : List StaticPropLump) :
    Except Err CpuModelP :=
  let propDatas := successful_props W props
  let materials0 := collect_by_name (propDatas.flatMap (·.model.textures))
  let geometries := propDatas.flatMap fun p => prop_to_meshes_prop p materials0
  let materials := materials0.map fun tex => prop_texture_to_material W tex
  .ok { name := "props", geometries := geometries, materials := materials }

/-- The older `three_d::CpuTexture` (as used by `src/bsp.rs`). -/
structure CpuTextureB where
  name : String
  data : DynImage
  width : Nat
  height : Nat

/-- The older `three_d::CpuMaterial` (as used by `src/bsp.rs`). -/
structure CpuMaterialB where
  albedo : RGBA
  albedo_texture : Option CpuTextureB
  name : String

/-- The older `three_d::CpuModel` (as used by `src/bsp.rs`). -/
structure CpuModelB where
  geometries : List CpuMesh
  materials : List CpuMaterialB

/-- Modelled from the spec: `Loader::load_from_paths` is called at
`src/bsp.rs` line 245 but is absent from `src/loader.rs`; per spec §6 the
loader provides `find_first(logical_name, ordered_prefixes)` followed by a
byte fetch — i.e. `find_in_paths` (which is in `src/loader.rs`) followed
by `load`, failing with not-found when no prefix matches. -/
def load_from_paths (W : World) (name : String) (dirs : List String) :
    Except Err ByteStr :=
  match find_in_paths W.fileExists name dirs with
  | some path => W.load path
  | none => .error (.resourceNotFound name)

/-- `src/bsp.rs` lines 239–255 (`load_texture`). -/
def load_texture_bsp (W : World) (name : String) (dirs : List String) :
    Except Err CpuTextureB := do
  let dirs := dirs.map fun dir => "materials/" ++ dir
  let path := name ++ ".vtf"
  let raw ← load_from_paths W path dirs
  let vtf ← W.vtfRead raw
  let image ← W.vtfDecode vtf
  pure { name := name, data := image, width := vtf.width, height := vtf.height }

/-- `src/bsp.rs` lines 218–237 (`prop_texture_to_material`):
`Color::default()` in `three_d` is opaque white. -/
def prop_texture_to_material_bsp (W : World) (texture : TextureInfo) :
    CpuMaterialB :=
  match load_texture_bsp W texture.name texture.search_paths with
  | .ok tex =>
    { albedo := ⟨255, 255, 255, 255⟩, name := tex.name, albedo_texture := some tex }
  | .error _ =>
    { albedo := ⟨255, 0, 255, 255⟩, name := texture.name, albedo_texture := none }

/-- `src/bsp.rs` lines 126–158 (`load_props`): this revision collects the
per-placement results through `collect::<Result<_, _>>()?`, so the first
failing placement aborts the whole call. -/
def load_props_bsp (W : World) (props : List StaticPropLump) :
    Except Err CpuModelB := do
  let propDatas ← props.mapM fun prop => do
    let model ← load_prop W prop.model
    pure (ModelData.mk model
      (from_translation (map_coords prop.origin) * prop.rotation) prop.skin)
  let geometries := propDatas.flatMap prop_to_meshes_bsp
  let textures := collect_by_name (propDatas.flatMap (·.model.textures))
  let materials := textures.map fun tex => prop_texture_to_material_bsp W tex
  pure { geometries := geometries, materials := materials }

/-! ## World geometry extractor (`src/bsp.rs`) -/

/-- `src/bsp.rs` lines 37–56 (`face_to_mesh`): coordinate-converted
positions, per-vertex UVs from the texture functionals, the texture name
as material name, and normals from `compute_normals`. -/
def face_to_mesh (W : World) (face : Face) : CpuMesh :=
  let texture := face.texture
  let positions := face.positions.map map_coords
  let uvs := face.positions.map fun pos => (texture.u pos, texture.v pos)
  { positions := positions
    uvs := some uvs
    material_name := some texture.name
    normals := some (W.compute_normals positions) }

/-- One step of `faces_by_texture.entry(name).or_default().push(face)`. -/
def insert_face (m : List (String × List Face)) (f : Face) :
    List (String × List Face) :=
  if m.any (·.1 = f.texture.name) then
    m.map fun kv => if kv.1 = f.texture.name then (kv.1, kv.2 ++ [f]) else kv
  else m ++ [(f.texture.name, [f])]

/-- `src/bsp.rs` lines 59–65: group faces by texture name.
(`HashMap` iteration order refined deterministically to first-insertion
key order; the key set and each key's face list are the `HashMap`'s.) -/
def faces_by_texture (faces : List Face) : List (String × List Face) :=
  faces.foldl insert_face []

/-- `src/bsp.rs` lines 69–83: merge one texture group — the first face's
mesh extended with the remaining faces' positions and UVs, then
`compute_normals` over the merged positions. Groups are nonempty by
construction (the `[]` case mirrors the source's unreachable `unwrap`). -/
def merge_group (W : World) : List Face → CpuMesh
  | [] => { positions := [], normals := none, uvs := none, material_name := none }
  | first :: rest =>
    let mesh := face_to_mesh W first
    let positions := mesh.positions ++ rest.flatMap fun f => (face_to_mesh W f).positions
    let uvs := mesh.uvs.getD [] ++ rest.flatMap fun f => (face_to_mesh W f).uvs.getD []
    { positions := positions
      uvs := some uvs
      material_name := mesh.material_name
      normals := some (W.compute_normals positions) }

/-- `src/bsp.rs` lines 87–117: the material of one texture group. Texture
names are ASCII in this pipeline, so `str::to_lowercase` is modelled by
ASCII lowercasing. -/
def group_material (W : World) : List Face → CpuMaterialB
  | [] => { albedo := ⟨255, 0, 255, 255⟩, albedo_texture := none, name := "" }
  | first :: _ =>
    let texture := first.texture
    let tex_file := "materials/" ++ to_ascii_lowercase texture.name ++ ".vtf"
    let vtf_data := (W.load tex_file).toOption
    let texture_data := vtf_data.bind fun data =>
      match W.vtfFromBytes data with
      | .error _ => none
      | .ok vtf =>
        match W.vtfDecode vtf with
        | .error _ => none
        | .ok image =>
          some (CpuTextureB.mk texture.name image texture.width texture.height)
    let color : RGBA :=
      if texture_data.isSome then ⟨255, 255, 255, 255⟩ else ⟨255, 0, 255, 255⟩
    { albedo := color, albedo_texture := texture_data, name := texture.name }

/-- `src/bsp.rs` lines 58–124 (`model_to_model`): discard invisible faces,
group the rest by texture name, emit one merged mesh and one material per
group. -/
def model_to_model (W : World) (model : BspModel) : CpuModelB :=
  let groups := faces_by_texture (model.faces.filter (·.visible))
  { geometries := groups.map fun g => merge_group W g.2
    materials := groups.map fun g => group_material W g.2 }

/-- `src/bsp.rs` lines 257–265 (`load_world`): parse the container, fail
fatally when there is no primary model. (`loader.set_pack`'s effect is
part of the fixed `load` capability.) -/
def load_world (W : World) (data : ByteStr) : Except Err (CpuModelB × Bsp) := do
  let bsp ← W.readBsp data
  let world_model ← match bsp.models.head? with
    | some m => pure m
    | none => throw (.other "No world model")
  pure (model_to_model W world_model, bsp)

/-- `src/bsp.rs` lines 14–18 (`load_map`): the pipeline driver of this
revision — the world model and the props model, each a `CpuModel` with
its own material list. -/
def load_map (W : World) (data : ByteStr) : Except Err (List CpuModelB) := do
  let (world, bsp) ← load_world W data
  let props ← load_props_bsp W bsp.static_props
  pure [world, props]

/-! ## Characterization of the texture grouping -/

/-- First-occurrence deduplication of a key list (the key order of the
insertion-ordered grouping refinement). -/
def dedup_keys (l : List String) : List String :=
  l.foldl (fun ks k => if k ∈ ks then ks else ks ++ [k]) []

theorem dedup_keys_append_singleton (l : List String) (k : String) :
    dedup_keys (l ++ [k]) =
      if k ∈ dedup_keys l then dedup_keys l else dedup_keys l ++ [k] := by
  unfold dedup_keys
  rw [List.foldl_append]
  rfl

theorem mem_dedup_keys (l : List String) (a : String) :
    a ∈ dedup_keys l ↔ a ∈ l := by
  induction l using List.reverseRecOn with
  | nil => simp [dedup_keys]
  | append_singleton l k ih =>
    rw [dedup_keys_append_singleton]
    by_cases h : k ∈ dedup_keys l
    · simp only [if_pos h, List.mem_append, List.mem_singleton, ih]
      constructor
      · exact fun h' => Or.inl h'
      · rintro (h' | rfl)
        · exact h'
        · exact ih.mp h
    · simp only [if_neg h, List.mem_append, List.mem_singleton, ih]

theorem faces_by_texture_eq (faces : List Face) :
    faces_by_texture faces =
      (dedup_keys (faces.map (·.texture.name))).map fun n =>
        (n, faces.filter fun f => f.texture.name = n) := by
  induction faces using List.reverseRecOn with
  | nil => rfl
  | append_singleton fs f ih =>
    have step : faces_by_texture (fs ++ [f]) =
        insert_face (faces_by_texture fs) f := by
      unfold faces_by_texture
      rw [List.foldl_append]
      rfl
    rw [step, ih, List.map_append]
    simp only [List.map_cons, List.map_nil]
    rw [dedup_keys_append_singleton]
    unfold insert_face
    have hany : ((dedup_keys (fs.map (·.texture.name))).map fun n =>
        (n, fs.filter fun f' => f'.texture.name = n)).any (·.1 = f.texture.name) =
          decide (f.texture.name ∈ dedup_keys (fs.map (·.texture.name))) := by
      rw [Bool.eq_iff_iff, List.any_eq_true, decide_eq_true_eq]
      constructor
      · rintro ⟨x, hx, hx'⟩
        obtain ⟨n, hn, rfl⟩ := List.mem_map.mp hx
        exact (of_decide_eq_true hx') ▸ hn
      · intro hmem
        exact ⟨(f.texture.name, fs.filter fun f' => f'.texture.name = f.texture.name),
          List.mem_map_of_mem _ hmem, by simp⟩
    rw [hany]
    by_cases hmem : f.texture.name ∈ dedup_keys (fs.map (·.texture.name))
    · rw [if_pos (by simpa using hmem), if_pos hmem, List.map_map]
      apply List.map_congr_left
      intro n hn
      simp only [Function.comp_def]
      by_cases hn' : n = f.texture.name
      · subst hn'
        rw [if_pos rfl]
        simp [List.filter_append]
      · rw [if_neg hn']
        have hfn : ¬(f.texture.name = n) := fun h => hn' h.symm
        simp [List.filter_append, hfn]
    · rw [if_neg (by simpa using hmem), if_neg hmem, List.map_append]
      congr 1
      · apply List.map_congr_left
        intro n hn
        have hfn : ¬(f.texture.name = n) := fun h => hmem (h ▸ hn)
        simp [List.filter_append, hfn]
      · have hrest : (fs.filter fun f' => f'.texture.name = f.texture.name) = [] := by
          rw [List.filter_eq_nil_iff]
          intro g hg
          simp only [decide_eq_true_eq]
          exact fun h =>
            hmem ((mem_dedup_keys _ _).mpr (h ▸ List.mem_map_of_mem _ hg))
        simp [List.filter_append, hrest]

theorem nodup_dedup_keys (l : List String) : (dedup_keys l).Nodup := by
  induction l using List.reverseRecOn with
  | nil => exact List.nodup_nil
  | append_singleton l k ih =>
    rw [dedup_keys_append_singleton]
    by_cases h : k ∈ dedup_keys l
    · rwa [if_pos h]
    · rw [if_neg h]
      simp only [List.nodup_append, List.nodup_singleton, true_and, and_true, ih]
      intro a ha hk
      rw [List.mem_singleton] at hk
      exact h (hk ▸ ha)

theorem dedup_keys_length (l : List String) :
    (dedup_keys l).length = l.toFinset.card := by
  have hset : (dedup_keys l).toFinset = l.toFinset := by
    ext a
    simp [List.mem_toFinset, mem_dedup_keys]
  rw [← hset, List.toFinset_card_of_nodup (nodup_dedup_keys l)]

theorem merge_group_cons (W : World) (first : Face) (rest : List Face) :
    (merge_group W (first :: rest)).positions =
      (first :: rest).flatMap (fun f => f.positions.map map_coords) ∧
    (merge_group W (first :: rest)).material_name = some first.texture.name := by
  constructor
  · simp only [merge_group, face_to_mesh, List.flatMap_cons]
  · rfl

/-- C5: the world extractor discards non-visible faces and groups the rest
by texture name: it emits exactly one merged primitive per distinct
texture name among the visible faces, and the primitive of a name merges
exactly the coordinate-converted vertices of the visible faces carrying
that name. -/
theorem model_to_model_texture_grouping (W : World) (model : BspModel) :
    ((model_to_model W model).geometries.length =
      ((model.faces.filter (·.visible)).map (·.texture.name)).toFinset.card) ∧
    (∀ n, n ∈ (model.faces.filter (·.visible)).map (·.texture.name) →
      ∃ mesh ∈ (model_to_model W model).geometries,
        mesh.material_name = some n ∧
        mesh.positions =
          ((model.faces.filter (·.visible)).filter
            (fun f => f.texture.name = n)).flatMap
            (fun f => f.positions.map map_coords)) := by
  have hgeo : (model_to_model W model).geometries =
      (dedup_keys ((model.faces.filter (·.visible)).map (·.texture.name))).map
        (fun n => merge_group W
          ((model.faces.filter (·.visible)).filter fun f => f.texture.name = n)) := by
    simp only [model_to_model, faces_by_texture_eq, List.map_map]
    rfl
  constructor
  · rw [hgeo, List.length_map, dedup_keys_length]
  · intro n hn
    have hn' : n ∈ dedup_keys ((model.faces.filter (·.visible)).map (·.texture.name)) :=
      (mem_dedup_keys _ _).mpr hn
    refine ⟨merge_group W
      ((model.faces.filter (·.visible)).filter fun f => f.texture.name = n),
      by rw [hgeo]; exact List.mem_map_of_mem _ hn', ?_, ?_⟩
    · cases hfl : (model.faces.filter (·.visible)).filter
          (fun f => f.texture.name = n) with
      | nil =>
        obtain ⟨f0, hf0, hf0n⟩ := List.mem_map.mp hn
        have hmem : f0 ∈ (model.faces.filter (·.visible)).filter
            (fun f => f.texture.name = n) :=
          List.mem_filter.mpr ⟨hf0, by simp [hf0n]⟩
        rw [hfl] at hmem
        exact absurd hmem (List.not_mem_nil f0)
      | cons first rest =>
        rw [(merge_group_cons W first rest).2]
        have hmem : first ∈ (model.faces.filter (·.visible)).filter
            (fun f => f.texture.name = n) := hfl ▸ List.mem_cons_self first rest
        have := (List.mem_filter.mp hmem).2
        simp only [decide_eq_true_eq] at this
        rw [this]
    · cases hfl : (model.faces.filter (·.visible)).filter
          (fun f => f.texture.name = n) with
      | nil => rfl
      | cons first rest => rw [(merge_group_cons W first rest).1]

/-- The spec's grouping scenario: three visible faces with texture "A",
two visible with "B", one invisible with "A". -/
def scenarioFace (n : String) (vis : Bool) (p : Vec3) : Face :=
  { texture := { name := n, u := fun _ => 0, v := fun _ => 0, width := 0, height := 0 }
    visible := vis
    positions := [p] }

/-- The level model of the grouping scenario. -/
def scenarioModel : BspModel :=
  { faces :=
      [ scenarioFace "A" true ⟨1, 0, 0⟩
      , scenarioFace "A" true ⟨2, 0, 0⟩
      , scenarioFace "B" true ⟨3, 0, 0⟩
      , scenarioFace "A" false ⟨4, 0, 0⟩
      , scenarioFace "B" true ⟨5, 0, 0⟩
      , scenarioFace "A" true ⟨6, 0, 0⟩ ] }

/-- A world whose externals are all trivial (only `compute_normals` is
used by the extractor). -/
def trivialWorld : World :=
  { load := fun _ => .error (.resourceNotFound "")
    fileExists := fun _ => false
    readBsp := fun _ => .error (.other "")
    readMdl := fun _ => .error (.other "")
    readVtx := fun _ => .error (.other "")
    readVvd := fun _ => .error (.other "")
    from_parts := fun _ _ _ => ⟨[], [], []⟩
    vtfFromBytes := fun _ => .error (.other "")
    vtfRead := fun _ => .error (.other "")
    vtfDecode := fun _ => .error (.other "")
    compute_normals := fun _ => []
    loadMaterialFallback := fun _ _ => 0 }

theorem model_to_model_texture_grouping_witness :
    ("A" ∈ (scenarioModel.faces.filter (·.visible)).map (·.texture.name)) ∧
    (∃ mesh ∈ (model_to_model trivialWorld scenarioModel).geometries,
      mesh.material_name = some "A" ∧
      mesh.positions =
        ((scenarioModel.faces.filter (·.visible)).filter
          (fun f => f.texture.name = "A")).flatMap
          (fun f => f.positions.map map_coords)) :=
  ⟨by decide,
   (model_to_model_texture_grouping trivialWorld scenarioModel).2 "A" (by decide)⟩

/-! ## Error handling of the prop loaders (C4) -/

/-- C4 (amended, `src/prop.rs` revision): `load_props` never propagates a
placement failure — it always returns `Ok`, and its primitives are exactly
those of the placements whose model loaded successfully, the failing ones
being dropped one by one. (The `src/bsp.rs` revision of `load_props`
instead aborts on the first failure; see the counterexample.) -/
theorem load_props_prop_skips_failures (W : World) (props : List StaticPropLump) :
    load_props_prop W props = .ok
      { name := "props"
        geometries := (successful_props W props).flatMap fun p =>
          prop_to_meshes_prop p
            (collect_by_name ((successful_props W props).flatMap (·.model.textures)))
        materials :=
          (collect_by_name
            ((successful_props W props).flatMap (·.model.textures))).map
            (prop_texture_to_material W) } ∧
    successful_props W props =
      (props.filter fun prop => (load_prop W prop.model).isOk).map fun prop =>
        PropData.mk prop.model ((load_prop W prop.model).toOption.getD ⟨[], [], []⟩)
          (from_translation (map_coords prop.origin) * prop.rotation) prop.skin := by
  refine ⟨rfl, ?_⟩
  induction props with
  | nil => rfl
  | cons p ps ih =>
    unfold successful_props at ih ⊢
    simp only [List.filterMap_cons, List.filter_cons]
    cases h : load_prop W p.model with
    | ok model =>
      have h2 : (load_prop W p.model).toOption = some model := by rw [h]; rfl
      simp only [ih]
      rw [if_pos (show (Except.ok model : Except Err VModel).isOk = true from rfl)]
      simp only [List.map_cons, h2, Option.getD_some]
      exact congrArg (List.cons _) ih
    | error e =>
      simp only [ih]
      rw [if_neg (show ¬(Except.error e : Except Err VModel).isOk = true from
        fun hc => Bool.noConfusion hc)]

/-- A world in which the model `a.mdl` is missing and every other asset
loads. -/
def c4World : World :=
  { trivialWorld with
    load := fun name =>
      if name = "a.mdl" then .error (.resourceNotFound "a.mdl") else .ok [0]
    readMdl := fun _ => .ok 0
    readVtx := fun _ => .ok 0
    readVvd := fun _ => .ok 0 }

/-- C4 counterexample (`src/bsp.rs` revision): one placement (`b.mdl`)
loads fine, the other (`a.mdl`) fails — yet `load_props` of `src/bsp.rs`
collects through `Result` and returns the error instead of returning the
surviving placement's primitives. -/
theorem load_props_bsp_aborts_on_failure :
    (load_prop c4World "b.mdl").isOk = true ∧
    load_props_bsp c4World
        [ ⟨"b.mdl", ⟨0, 0, 0⟩, 1, 0⟩, ⟨"a.mdl", ⟨0, 0, 0⟩, 1, 0⟩ ] =
      .error (.resourceNotFound "a.mdl") :=
  ⟨rfl, rfl⟩

/-! ## Normal transformation of emitted prop meshes (C6) -/

theorem mat4_invert_one : mat4_invert (1 : Mat4) = some 1 := by
  unfold mat4_invert
  rw [if_neg (by simp [Matrix.det_one])]
  rw [Matrix.det_one, Matrix.adjugate_one]
  simp

/-- C6 (amended): in the baked-transform revision (`src/bsp.rs`), emitted
vertex normals are transformed by the negated inverse-transpose of the
placement transform while positions get the transform itself and UVs are
carried through unchanged; in the primitive-transform revision
(`src/prop.rs`), the placement transform is attached to the primitive and
the emitted normals receive only the coordinate conversion — no
inverse-transpose correction — while UVs and tangents are carried through
unchanged. -/
theorem prop_to_meshes_normal_transforms (P : ModelData) (Q : PropData)
    (texs : List TextureInfo) (Ti : Mat4)
    (hinv : mat4_invert P.transform = some Ti) :
    prop_to_meshes_bsp P = P.model.meshes.map (fun mesh =>
      { positions := mesh.vertices.map fun v =>
          apply_transform (map_coords v.position) P.transform
        normals := some (mesh.vertices.map fun v =>
          apply_transform (map_coords v.normal) ((-1 : ℚ) • Matrix.transpose Ti))
        uvs := some (mesh.vertices.map fun v => v.texture_coordinates)
        material_name :=
          some (((select_skin P.model P.skin).texture mesh.material_index).getD "") }) ∧
    prop_to_meshes_prop Q texs = Q.model.meshes.map (fun mesh =>
      { name := ""
        transformation := Q.transform
        geometry :=
          { positions := mesh.vertices.map fun v => map_coords v.position
            indices := []
            normals := some (mesh.vertices.map fun v => map_coords v.normal)
            uvs := some (mesh.vertices.map fun v => v.texture_coordinates)
            tangents := some mesh.tangents }
        material_index := texs.findIdx?
          (·.name = ((select_skin Q.model Q.skin).texture mesh.material_index).getD "") }) := by
  constructor
  · simp only [prop_to_meshes_bsp, hinv, Option.getD_some]
  · rfl

/-- A one-mesh, one-vertex model with a single skin table. -/
def c6Model : VModel :=
  { skin_tables := [⟨["t"]⟩]
    meshes := [{ material_index := 0
                 vertices := [⟨⟨0, 0, 0⟩, ⟨0, 0, 1⟩, (0, 0)⟩]
                 tangents := [] }]
    textures := [] }

/-- An identity-transform placement of that model. -/
def c6Prop : PropData := { name := "p", model := c6Model, transform := 1, skin := 0 }

/-- C6 counterexample: for the identity placement transform, the
`src/prop.rs` revision emits the vertex normal with only the coordinate
conversion applied, which differs from the claimed transformation by the
negated inverse-transpose of the placement transform. -/
theorem prop_to_meshes_prop_normals_uncorrected :
    ((prop_to_meshes_prop c6Prop []).map fun p => p.geometry.normals) =
      [some [map_coords ⟨0, 0, 1⟩]] ∧
    ((prop_to_meshes_prop c6Prop []).map fun p => p.geometry.normals) ≠
      [some [apply_transform (map_coords ⟨0, 0, 1⟩)
        ((-1 : ℚ) • Matrix.transpose ((mat4_invert c6Prop.transform).getD 1))]] := by
  refine ⟨rfl, ?_⟩
  rw [show mat4_invert c6Prop.transform = some 1 from mat4_invert_one]
  rw [Option.getD_some, Matrix.transpose_one]
  decide

theorem prop_to_meshes_normal_transforms_witness :
    mat4_invert (1 : Mat4) = some 1 ∧
    (prop_to_meshes_bsp ⟨c6Model, 1, 0⟩).map (·.material_name) = [some "t"] :=
  ⟨mat4_invert_one, by
    rw [(prop_to_meshes_normal_transforms ⟨c6Model, 1, 0⟩ c6Prop [] 1
      mat4_invert_one).1]
    rfl⟩

/-! ## Material lists returned by the pipeline driver (C9) -/

/-- A world whose BSP parses to one model with one visible face textured
"A" and no static props (all other assets missing). -/
def c9World : World :=
  { trivialWorld with
    readBsp := fun _ => .ok
      { models := [⟨[{ texture := ⟨"A", fun _ => 0, fun _ => 0, 4, 4⟩
                       visible := true
                       positions := [] }]⟩]
        static_props := [] } }

/-- C9 counterexample: `load_map` returns the world collection and the
props collection each with its *own* material list — here the world list
holds one material (named "A") while the props list is empty, so the two
collections are not paired with one and the same shared list. -/
theorem load_map_no_shared_material_list :
    ((load_map c9World [2]).toOption.getD []).length = 2 ∧
    (((load_map c9World [2]).toOption.getD [])[0]?.map fun m =>
      m.materials.map (·.name)) = some ["A"] ∧
    (((load_map c9World [2]).toOption.getD [])[1]?.map fun m =>
      m.materials.map (·.name)) = some [] :=
  ⟨rfl, rfl, rfl⟩

/-- C9 (amended): the driver returns two collections each paired with its
own material list, and within each collection the linkage is valid: in the
`src/prop.rs` props collection every primitive's `material_index`, when
present, is a valid index into that collection's own material list; in the
world collection each mesh is linked by name, its material name naming the
material stored at the same position of the world's own list. -/
theorem per_collection_material_linkage (W : World)
    (props : List StaticPropLump) (bm : BspModel) (m : CpuModelP)
    (hm : load_props_prop W props = .ok m) :
    (∀ prim ∈ m.geometries, ∀ i, prim.material_index = some i →
      i < m.materials.length) ∧
    (∀ (i : Nat) (mesh : CpuMesh) (n : String),
      ((model_to_model W bm).geometries)[i]? = some mesh →
      mesh.material_name = some n →
      ∃ mat : CpuMaterialB,
        ((model_to_model W bm).materials)[i]? = some mat ∧ mat.name = n) := by
  constructor
  · have hm' : m =
        { name := "props"
          geometries := (successful_props W props).flatMap fun p =>
            prop_to_meshes_prop p
              (collect_by_name ((successful_props W props).flatMap (·.model.textures)))
          materials :=
            (collect_by_name
              ((successful_props W props).flatMap (·.model.textures))).map
              (prop_texture_to_material W) } := by
      have := (load_props_prop_skips_failures W props).1
      rw [hm] at this
      exact Except.ok.inj this
    subst hm'
    intro prim hprim i hi
    simp only [List.mem_flatMap] at hprim
    obtain ⟨p, -, hpm⟩ := hprim
    obtain ⟨mesh, -, rfl⟩ := List.mem_map.mp hpm
    simp only [List.length_map]
    simp only at hi
    obtain ⟨hlt, -, -⟩ := List.findIdx?_eq_some_iff_getElem.mp hi
    exact hlt
  · intro i mesh n hmesh hname
    simp only [model_to_model, List.getElem?_map] at hmesh ⊢
    cases hg : (faces_by_texture (bm.faces.filter (·.visible)))[i]? with
    | none =>
      rw [hg] at hmesh
      exact Option.noConfusion hmesh
    | some g =>
      rw [hg] at hmesh
      have hmesh' : merge_group W g.2 = mesh := Option.some.inj hmesh
      cases hg2 : g.2 with
      | nil =>
        rw [← hmesh', hg2] at hname
        exact Option.noConfusion hname
      | cons first rest =>
        refine ⟨group_material W g.2, rfl, ?_⟩
        rw [← hmesh', hg2, (merge_group_cons W first rest).2] at hname
        rw [hg2]
        exact Option.some.inj hname

theorem per_collection_material_linkage_witness :
    load_props_prop trivialWorld [] = .ok ⟨"props", [], []⟩ ∧
    (∃ mat, ((model_to_model trivialWorld scenarioModel).materials)[0]? =
      some mat ∧ mat.name = "A") :=
  ⟨rfl,
   (per_collection_material_linkage trivialWorld [] scenarioModel
      ⟨"props", [], []⟩ rfl).2 0
      (merge_group trivialWorld
        [ scenarioFace "A" true ⟨1, 0, 0⟩
        , scenarioFace "A" true ⟨2, 0, 0⟩
        , scenarioFace "A" true ⟨6, 0, 0⟩ ]) "A" rfl rfl⟩

end Vbspview
